import Mathlib

/-!
Shallow embedding of the connection-multiplexer main loop of pg_httpd
(src/pg_httpd.c, function pg_httpd_main, lines 138-258).

Modelling notes, all taken from the source:
- File descriptors are natural numbers; following the C code, the value 0
  stored in a connectlist slot marks the slot as empty (lines 139-140 clear
  every slot to 0, line 225 tests connectlist[i] == 0, line 254 clears a
  serviced slot back to 0).
- The per-iteration environment (whether select fails, which descriptors are
  ready, what accept returns, what recv returns on each descriptor) is an
  oracle parameter: the loop body is a deterministic function of the state
  and this oracle.
- The StringInfo reply buffer is a String; initStringInfo runs once before
  the loop (line 145), and appendStringInfo (lines 247-251) appends the
  fixed response text to the buffer.  send (line 252) transmits
  strlen(reply.data) bytes, i.e. the whole accumulated buffer.
- elog calls are modelled as emitted log events carrying the level written
  in the source (ERROR at line 205, WARNING at lines 220 and 233).  The
  message of the accept warning is abbreviated to "accept() error" (the C
  format string "accept() error: %d %d" has two conversions but one
  argument).
- The latch wait, postmaster-death exit and SIGHUP config reload
  (lines 167-183) precede the select call and touch neither the socket
  state nor the connection table; they are not part of the per-iteration
  socket behaviour the claims are about and are left out of the step
  function.
- Observable side effects of one iteration are recorded as an ordered event
  trace: accept, store-into-slot, the close of a busy-rejected connection,
  recv/send/close on a serviced slot (tagged with the slot index), and log
  lines.
-/

namespace PgHttpd

/-- File descriptors, as in the C code; 0 in a slot means the slot is empty. -/
abbrev FD := Nat

/-- Log levels actually used inside the main loop of the source. -/
inductive Level where
  | warning
  | error
deriving DecidableEq, Repr

/-- One observable side effect of an iteration of the main loop. -/
inductive Event where
  /-- accept() returned this new descriptor (line 215). -/
  | accepted (fd : FD)
  /-- the new descriptor was stored into this empty slot (lines 224-229). -/
  | stored (slot : Nat) (fd : FD)
  /-- close() on a busy-rejected descriptor (line 234). -/
  | busyClosed (fd : FD)
  /-- recv() on the connection held by this slot, with its result (line 244). -/
  | recvd (slot : Nat) (fd : FD) (res : Int)
  /-- send() of these bytes on the connection held by this slot (line 252). -/
  | sent (slot : Nat) (fd : FD) (bytes : String)
  /-- close() on the connection held by this slot (line 253). -/
  | closedConn (slot : Nat) (fd : FD)
  /-- an elog call, with the level written in the source. -/
  | logged (lvl : Level) (msg : String)
deriving DecidableEq, Repr

/-- Outcome of the accept() call of one iteration (lines 215-222). -/
inductive AcceptResult where
  /-- accept returned -1; the flag records whether errno was EAGAIN. -/
  | fail (eagain : Bool)
  /-- accept returned a new connected descriptor. -/
  | conn (fd : FD)
deriving DecidableEq, Repr

/-- Per-iteration oracle: what the operating system does this time around. -/
structure Env where
  /-- select() returned a negative value (line 203). -/
  selectFails : Bool
  /-- descriptors that are ready to read this iteration. -/
  ready : List FD
  /-- what accept() returns, consulted only when the listener is ready. -/
  acceptResult : AcceptResult
  /-- what recv() returns on each descriptor; the source ignores it. -/
  recvRes : FD → Int

/-- Mutable state of pg_httpd_main that the loop body reads and writes. -/
structure MuxState where
  /-- the connection table, length pg_httpd_max_sockets (line 95). -/
  connectlist : List FD
  /-- the StringInfo reply buffer, initialised once before the loop (line 145). -/
  reply : String
  /-- the running highest descriptor passed to select (lines 138, 193-194). -/
  highsock : FD
deriving DecidableEq, Repr

/-- Result of one iteration: the new state plus the ordered event trace. -/
structure IterResult where
  state : MuxState
  events : List Event
deriving DecidableEq, Repr

/-- The fixed response text appended for every serviced connection
(lines 247-251, with content_length = 12 substituted). -/
def httpReply : String :=
  "HTTP/1.0 200 OK\r\nContent-Length: 12\r\n\r\nHello world!"

/-- The descriptors put into the fd_set before select: the listener plus every
occupied slot (lines 185-196). -/
def watchedFDs (listener : FD) (cl : List FD) : List FD :=
  listener :: cl.filter (fun c => c ≠ 0)

/-- The fd_set after select returns: the watched descriptors that are ready. -/
def readySet (listener : FD) (env : Env) (cl : List FD) : List FD :=
  (watchedFDs listener cl).filter (fun f => env.ready.contains f)

/-- The highsock update performed while building the fd_set (lines 188-196). -/
def newHighsock (cl : List FD) (h : FD) : FD :=
  cl.foldl (fun h c => if c ≠ 0 ∧ c > h then c else h) h

/-- The first-empty-slot store of the accepted descriptor (lines 224-229):
returns the chosen slot index and the updated table, or none when no slot
is free. -/
def storeFirst (cl : List FD) (fd : FD) : Option (Nat × List FD) :=
  match cl with
  | [] => none
  | c :: rest =>
    if c = 0 then
      some (0, fd :: rest)
    else
      match storeFirst rest fd with
      | some (k, rest2) => some (k + 1, c :: rest2)
      | none => none

/-- Whether the accept outcome ends up stored in a slot (so that the
iteration falls through to the service loop rather than hitting one of the
two continue statements at lines 221 and 235). -/
def acceptStores : AcceptResult → List FD → Bool
  | AcceptResult.fail _, _ => false
  | AcceptResult.conn f, cl => (storeFirst cl f).isSome

/-- The service loop over the slots (lines 239-256): for each slot whose
stored value is in the post-select fd_set, recv, append the fixed response
to the reply buffer, send the whole buffer, close, and clear the slot.
Returns the updated table, the updated reply buffer, and the event trace;
the Nat argument is the index of the first slot of the remaining list. -/
def serviceLoop (socks : List FD) (recvRes : FD → Int) :
    Nat → List FD → String → List FD × String × List Event
  | _, [], reply => ([], reply, [])
  | i, c :: rest, reply =>
    if socks.contains c then
      let rep := reply ++ httpReply
      let r := serviceLoop socks recvRes (i + 1) rest rep
      (0 :: r.1, r.2.1,
        Event.recvd i c (recvRes c) :: Event.sent i c rep ::
          Event.closedConn i c :: r.2.2)
    else
      let r := serviceLoop socks recvRes (i + 1) rest reply
      (c :: r.1, r.2.1, r.2.2)

/-- One iteration of the main loop body (lines 146-257), from the fd_set
build through the service loop, as a function of the state and the
per-iteration oracle. -/
def iteration (listener : FD) (env : Env) (st : MuxState) : IterResult :=
  let hs := newHighsock st.connectlist st.highsock
  if env.selectFails then
    { state := { connectlist := st.connectlist, reply := st.reply, highsock := hs },
      events := [Event.logged Level.error "select"] }
  else
    let socks := readySet listener env st.connectlist
    if socks.isEmpty then
      { state := { connectlist := st.connectlist, reply := st.reply, highsock := hs },
        events := [] }
    else if socks.contains listener then
      match env.acceptResult with
      | AcceptResult.fail eagain =>
        { state := { connectlist := st.connectlist, reply := st.reply, highsock := hs },
          events :=
            if eagain then [] else [Event.logged Level.warning "accept() error"] }
      | AcceptResult.conn f =>
        match storeFirst st.connectlist f with
        | none =>
          { state := { connectlist := st.connectlist, reply := st.reply, highsock := hs },
            events := [Event.accepted f,
              Event.logged Level.warning "server too busy", Event.busyClosed f] }
        | some (k, cl2) =>
          let r := serviceLoop socks env.recvRes 0 cl2 st.reply
          { state := { connectlist := r.1, reply := r.2.1, highsock := hs },
            events := Event.accepted f :: Event.stored k f :: r.2.2 }
    else
      let r := serviceLoop socks env.recvRes 0 st.connectlist st.reply
      { state := { connectlist := r.1, reply := r.2.1, highsock := hs },
        events := r.2.2 }

/-- The state just before the main loop starts: every slot cleared to 0
(lines 139-140), the reply buffer freshly initialised (line 145), highsock
equal to the listener (line 138). -/
def initialState (maxSockets : Nat) (listener : FD) : MuxState :=
  { connectlist := List.replicate maxSockets 0, reply := "", highsock := listener }

/-- Running the loop body over a sequence of per-iteration oracles. -/
def run (listener : FD) (envs : List Env) (st : MuxState) : MuxState :=
  envs.foldl (fun s e => (iteration listener e s).state) st

/-- Number of occupied slots of a connection table. -/
def occupiedCount (cl : List FD) : Nat :=
  (cl.filter (fun c => c ≠ 0)).length

/-- Events produced by the per-slot service code (lines 243-254), as opposed
to the listener/accept phase. -/
def isServiceEvent : Event → Bool
  | Event.recvd _ _ _ => true
  | Event.sent _ _ _ => true
  | Event.closedConn _ _ => true
  | _ => false

/-- The slot index of a send event, if any. -/
def sentSlot : Event → Option Nat
  | Event.sent i _ _ => some i
  | _ => none

/-- The send events of a trace: slot, descriptor and transmitted bytes. -/
def sentEvents (evs : List Event) : List (Nat × FD × String) :=
  evs.filterMap fun e =>
    match e with
    | Event.sent i f d => some (i, f, d)
    | _ => none

/-- The service-path close events of a trace: slot and descriptor. -/
def closedEvents (evs : List Event) : List (Nat × FD) :=
  evs.filterMap fun e =>
    match e with
    | Event.closedConn i f => some (i, f)
    | _ => none


theorem contains_isEmpty_false {l : List FD} {a : FD} (h : l.contains a = true) :
    l.isEmpty = false := by
  cases l with
  | nil => simp [List.contains] at h
  | cons b t => rfl

theorem storeFirst_length {cl : List FD} {fd : FD} {k : Nat} {cl2 : List FD}
    (h : storeFirst cl fd = some (k, cl2)) : cl2.length = cl.length := by
  induction cl generalizing k cl2 with
  | nil => simp [storeFirst] at h
  | cons c rest ih =>
    by_cases hc : c = 0
    · simp [storeFirst, hc] at h
      simp [← h.2]
    · simp only [storeFirst, if_neg hc] at h
      cases hr : storeFirst rest fd with
      | none => rw [hr] at h; simp at h
      | some p =>
        rw [hr] at h
        cases p with
        | mk k1 rest2 =>
          simp at h
          cases h.2
          simp [ih hr]

theorem storeFirst_preserves {cl : List FD} {fd : FD} {k : Nat} {cl2 : List FD}
    (h : storeFirst cl fd = some (k, cl2)) {j : Nat} {c : FD}
    (hj : cl[j]? = some c) (hc : c ≠ 0) : cl2[j]? = some c := by
  induction cl generalizing k cl2 j with
  | nil => simp [storeFirst] at h
  | cons c0 rest ih =>
    by_cases hc0 : c0 = 0
    · simp [storeFirst, hc0] at h
      cases j with
      | zero =>
        simp [hc0] at hj
        exact absurd hj.symm hc
      | succ j =>
        simp at hj
        simp [← h.2, hj]
    · simp only [storeFirst, if_neg hc0] at h
      cases hr : storeFirst rest fd with
      | none => rw [hr] at h; simp at h
      | some p =>
        rw [hr] at h
        cases p with
        | mk k1 rest2 =>
          simp at h
          cases h.2
          cases j with
          | zero => simpa using hj
          | succ j =>
            simp at hj ⊢
            exact ih hr hj

theorem storeFirst_none_of_full {cl : List FD} {fd : FD}
    (h : ∀ c ∈ cl, c ≠ 0) : storeFirst cl fd = none := by
  induction cl with
  | nil => rfl
  | cons c rest ih =>
    have hc : c ≠ 0 := h c (by simp)
    simp only [storeFirst, if_neg hc]
    rw [ih (fun x hx => h x (by simp [hx]))]

theorem occupiedCount_le (cl : List FD) : occupiedCount cl ≤ cl.length :=
  List.length_filter_le _ _



theorem serviceLoop_nil (socks : List FD) (recvRes : FD → Int) (i : Nat) (reply : String) :
    serviceLoop socks recvRes i [] reply = ([], reply, []) := rfl

theorem serviceLoop_cons_pos (socks : List FD) (recvRes : FD → Int) (i : Nat)
    (c : FD) (rest : List FD) (reply : String) (hc : socks.contains c = true) :
    serviceLoop socks recvRes i (c :: rest) reply =
      (0 :: (serviceLoop socks recvRes (i + 1) rest (reply ++ httpReply)).1,
       (serviceLoop socks recvRes (i + 1) rest (reply ++ httpReply)).2.1,
       Event.recvd i c (recvRes c) :: Event.sent i c (reply ++ httpReply) ::
         Event.closedConn i c ::
         (serviceLoop socks recvRes (i + 1) rest (reply ++ httpReply)).2.2) := by
  simp only [serviceLoop, hc, if_true]

theorem serviceLoop_cons_neg (socks : List FD) (recvRes : FD → Int) (i : Nat)
    (c : FD) (rest : List FD) (reply : String) (hc : ¬ socks.contains c = true) :
    serviceLoop socks recvRes i (c :: rest) reply =
      (c :: (serviceLoop socks recvRes (i + 1) rest reply).1,
       (serviceLoop socks recvRes (i + 1) rest reply).2.1,
       (serviceLoop socks recvRes (i + 1) rest reply).2.2) := by
  simp only [serviceLoop]
  rw [if_neg hc]

theorem serviceLoop_fst_length (socks : List FD) (recvRes : FD → Int) :
    ∀ (i : Nat) (cl : List FD) (reply : String),
      (serviceLoop socks recvRes i cl reply).1.length = cl.length := by
  intro i cl
  induction cl generalizing i with
  | nil => intro reply; rfl
  | cons c rest ih =>
    intro reply
    by_cases hc : socks.contains c = true
    · rw [serviceLoop_cons_pos socks recvRes i c rest reply hc]
      simp [ih]
    · rw [serviceLoop_cons_neg socks recvRes i c rest reply hc]
      simp [ih]

theorem serviceLoop_getElem (socks : List FD) (recvRes : FD → Int) :
    ∀ (i : Nat) (cl : List FD) (reply : String) (j : Nat),
      (serviceLoop socks recvRes i cl reply).1[j]? =
        (cl[j]?).map (fun c => if socks.contains c = true then 0 else c) := by
  intro i cl
  induction cl generalizing i with
  | nil => intro reply j; simp [serviceLoop_nil]
  | cons c rest ih =>
    intro reply j
    by_cases hc : socks.contains c = true
    · rw [serviceLoop_cons_pos socks recvRes i c rest reply hc]
      cases j with
      | zero =>
        rw [List.getElem?_cons_zero, List.getElem?_cons_zero]
        show some 0 = some (if socks.contains c = true then 0 else c)
        rw [if_pos hc]
      | succ j => simp [ih]
    · rw [serviceLoop_cons_neg socks recvRes i c rest reply hc]
      cases j with
      | zero =>
        rw [List.getElem?_cons_zero, List.getElem?_cons_zero]
        show some c = some (if socks.contains c = true then 0 else c)
        rw [if_neg hc]
      | succ j => simp [ih]

theorem serviceLoop_closed_mem (socks : List FD) (recvRes : FD → Int) :
    ∀ (i : Nat) (cl : List FD) (reply : String) (j : Nat) (c : FD),
      cl[j]? = some c → socks.contains c = true →
      Event.closedConn (i + j) c ∈ (serviceLoop socks recvRes i cl reply).2.2 := by
  intro i cl
  induction cl generalizing i with
  | nil => intro reply j c hj; simp at hj
  | cons c0 rest ih =>
    intro reply j c hj hc
    cases j with
    | zero =>
      simp at hj
      subst hj
      rw [serviceLoop_cons_pos socks recvRes i c0 rest reply hc]
      simp
    | succ j =>
      simp at hj
      have harith : i + 1 + j = i + (j + 1) := by omega
      by_cases hc0 : socks.contains c0 = true
      · have hm := ih (i + 1) (reply ++ httpReply) j c hj hc
        rw [harith] at hm
        rw [serviceLoop_cons_pos socks recvRes i c0 rest reply hc0]
        simp [hm]
      · have hm := ih (i + 1) reply j c hj hc
        rw [harith] at hm
        rw [serviceLoop_cons_neg socks recvRes i c0 rest reply hc0]
        simp [hm]

theorem serviceLoop_service_events (socks : List FD) (recvRes : FD → Int) :
    ∀ (i : Nat) (cl : List FD) (reply : String) (e : Event),
      e ∈ (serviceLoop socks recvRes i cl reply).2.2 → isServiceEvent e = true := by
  intro i cl
  induction cl generalizing i with
  | nil => intro reply e he; simp [serviceLoop_nil] at he
  | cons c rest ih =>
    intro reply e he
    by_cases hc : socks.contains c = true
    · rw [serviceLoop_cons_pos socks recvRes i c rest reply hc] at he
      simp at he
      rcases he with h | h | h | h
      · subst h; rfl
      · subst h; rfl
      · subst h; rfl
      · exact ih (i + 1) _ e h
    · rw [serviceLoop_cons_neg socks recvRes i c rest reply hc] at he
      simp at he
      exact ih (i + 1) _ e he

theorem sentSlot_filterMap_service (i : Nat) (c : FD) (res : Int) (bytes : String)
    (evs : List Event) :
    List.filterMap sentSlot
      (Event.recvd i c res :: Event.sent i c bytes :: Event.closedConn i c :: evs) =
      i :: List.filterMap sentSlot evs := by
  simp [List.filterMap_cons, sentSlot]

theorem serviceLoop_sentSlot_lb (socks : List FD) (recvRes : FD → Int) :
    ∀ (i : Nat) (cl : List FD) (reply : String) (s : Nat),
      s ∈ ((serviceLoop socks recvRes i cl reply).2.2.filterMap sentSlot) → i ≤ s := by
  intro i cl
  induction cl generalizing i with
  | nil => intro reply s hs; simp [serviceLoop_nil] at hs
  | cons c rest ih =>
    intro reply s hs
    by_cases hc : socks.contains c = true
    · rw [serviceLoop_cons_pos socks recvRes i c rest reply hc] at hs
      rw [sentSlot_filterMap_service, List.mem_cons] at hs
      rcases hs with h | h
      · omega
      · have := ih (i + 1) _ s h
        omega
    · rw [serviceLoop_cons_neg socks recvRes i c rest reply hc] at hs
      have := ih (i + 1) _ s hs
      omega

theorem serviceLoop_sent_sorted (socks : List FD) (recvRes : FD → Int) :
    ∀ (i : Nat) (cl : List FD) (reply : String),
      List.Pairwise (fun a b => a < b)
        ((serviceLoop socks recvRes i cl reply).2.2.filterMap sentSlot) := by
  intro i cl
  induction cl generalizing i with
  | nil => intro reply; simp [serviceLoop_nil]
  | cons c rest ih =>
    intro reply
    by_cases hc : socks.contains c = true
    · rw [serviceLoop_cons_pos socks recvRes i c rest reply hc]
      rw [sentSlot_filterMap_service]
      rw [List.pairwise_cons]
      constructor
      · intro s hs
        have := serviceLoop_sentSlot_lb socks recvRes (i + 1) rest (reply ++ httpReply) s hs
        omega
      · exact ih (i + 1) (reply ++ httpReply)
    · rw [serviceLoop_cons_neg socks recvRes i c rest reply hc]
      exact ih (i + 1) reply

theorem sentEvents_service_cons (i : Nat) (c : FD) (res : Int) (bytes : String)
    (evs : List Event) :
    sentEvents (Event.recvd i c res :: Event.sent i c bytes ::
        Event.closedConn i c :: evs) =
      (i, c, bytes) :: sentEvents evs := by
  simp [sentEvents, List.filterMap_cons]

theorem closedEvents_service_cons (i : Nat) (c : FD) (res : Int) (bytes : String)
    (evs : List Event) :
    closedEvents (Event.recvd i c res :: Event.sent i c bytes ::
        Event.closedConn i c :: evs) =
      (i, c) :: closedEvents evs := by
  simp [closedEvents, List.filterMap_cons]

theorem serviceLoop_recvRes_irrel (socks : List FD) (r1 r2 : FD → Int) :
    ∀ (i : Nat) (cl : List FD) (reply : String),
      (serviceLoop socks r1 i cl reply).1 = (serviceLoop socks r2 i cl reply).1 ∧
      (serviceLoop socks r1 i cl reply).2.1 = (serviceLoop socks r2 i cl reply).2.1 ∧
      sentEvents (serviceLoop socks r1 i cl reply).2.2 =
        sentEvents (serviceLoop socks r2 i cl reply).2.2 ∧
      closedEvents (serviceLoop socks r1 i cl reply).2.2 =
        closedEvents (serviceLoop socks r2 i cl reply).2.2 := by
  intro i cl
  induction cl generalizing i with
  | nil => intro reply; exact ⟨rfl, rfl, rfl, rfl⟩
  | cons c rest ih =>
    intro reply
    by_cases hc : socks.contains c = true
    · rw [serviceLoop_cons_pos socks r1 i c rest reply hc,
        serviceLoop_cons_pos socks r2 i c rest reply hc]
      obtain ⟨h1, h2, h3, h4⟩ := ih (i + 1) (reply ++ httpReply)
      refine ⟨by simp [h1], by simp [h2], ?_, ?_⟩
      · rw [sentEvents_service_cons, sentEvents_service_cons, h3]
      · rw [closedEvents_service_cons, closedEvents_service_cons, h4]
    · rw [serviceLoop_cons_neg socks r1 i c rest reply hc,
        serviceLoop_cons_neg socks r2 i c rest reply hc]
      obtain ⟨h1, h2, h3, h4⟩ := ih (i + 1) reply
      exact ⟨by simp [h1], by simp [h2], h3, h4⟩

theorem iteration_selectFail (listener : FD) (env : Env) (st : MuxState)
    (h : env.selectFails = true) :
    iteration listener env st =
      { state :=
          { connectlist := st.connectlist, reply := st.reply,
            highsock := newHighsock st.connectlist st.highsock },
        events := [Event.logged Level.error "select"] } := by
  simp only [iteration, h, if_true]

theorem iteration_timeout (listener : FD) (env : Env) (st : MuxState)
    (h : env.selectFails = false)
    (hempty : readySet listener env st.connectlist = []) :
    iteration listener env st =
      { state :=
          { connectlist := st.connectlist, reply := st.reply,
            highsock := newHighsock st.connectlist st.highsock },
        events := [] } := by
  simp only [iteration, h, hempty]
  simp

theorem iteration_acceptFail (listener : FD) (env : Env) (st : MuxState) (e : Bool)
    (h : env.selectFails = false)
    (hl : (readySet listener env st.connectlist).contains listener = true)
    (ha : env.acceptResult = AcceptResult.fail e) :
    iteration listener env st =
      { state :=
          { connectlist := st.connectlist, reply := st.reply,
            highsock := newHighsock st.connectlist st.highsock },
        events :=
          if e then [] else [Event.logged Level.warning "accept() error"] } := by
  have hne : (readySet listener env st.connectlist).isEmpty = false :=
    contains_isEmpty_false hl
  simp only [iteration, h, hne, hl, ha, if_true]
  simp

theorem iteration_busy (listener : FD) (env : Env) (st : MuxState) (f : FD)
    (h : env.selectFails = false)
    (hl : (readySet listener env st.connectlist).contains listener = true)
    (ha : env.acceptResult = AcceptResult.conn f)
    (hfull : storeFirst st.connectlist f = none) :
    iteration listener env st =
      { state :=
          { connectlist := st.connectlist, reply := st.reply,
            highsock := newHighsock st.connectlist st.highsock },
        events := [Event.accepted f,
          Event.logged Level.warning "server too busy", Event.busyClosed f] } := by
  have hne : (readySet listener env st.connectlist).isEmpty = false :=
    contains_isEmpty_false hl
  simp only [iteration, h, hne, hl, ha, hfull, if_true]
  simp

theorem iteration_store (listener : FD) (env : Env) (st : MuxState) (f : FD)
    (k : Nat) (cl2 : List FD)
    (h : env.selectFails = false)
    (hl : (readySet listener env st.connectlist).contains listener = true)
    (ha : env.acceptResult = AcceptResult.conn f)
    (hstore : storeFirst st.connectlist f = some (k, cl2)) :
    iteration listener env st =
      { state :=
          { connectlist :=
              (serviceLoop (readySet listener env st.connectlist)
                env.recvRes 0 cl2 st.reply).1,
            reply :=
              (serviceLoop (readySet listener env st.connectlist)
                env.recvRes 0 cl2 st.reply).2.1,
            highsock := newHighsock st.connectlist st.highsock },
        events := Event.accepted f :: Event.stored k f ::
          (serviceLoop (readySet listener env st.connectlist)
            env.recvRes 0 cl2 st.reply).2.2 } := by
  have hne : (readySet listener env st.connectlist).isEmpty = false :=
    contains_isEmpty_false hl
  simp only [iteration, h, hne, hl, ha, hstore, if_true]
  simp

theorem iteration_noListener (listener : FD) (env : Env) (st : MuxState)
    (h : env.selectFails = false)
    (hne : (readySet listener env st.connectlist).isEmpty = false)
    (hl : (readySet listener env st.connectlist).contains listener = false) :
    iteration listener env st =
      { state :=
          { connectlist :=
              (serviceLoop (readySet listener env st.connectlist)
                env.recvRes 0 st.connectlist st.reply).1,
            reply :=
              (serviceLoop (readySet listener env st.connectlist)
                env.recvRes 0 st.connectlist st.reply).2.1,
            highsock := newHighsock st.connectlist st.highsock },
        events := (serviceLoop (readySet listener env st.connectlist)
          env.recvRes 0 st.connectlist st.reply).2.2 } := by
  simp only [iteration, h, hne, hl]
  simp

theorem isEmpty_false_of_ne_nil {l : List FD} (h : l ≠ []) : l.isEmpty = false := by
  cases l with
  | nil => exact absurd rfl h
  | cons a t => rfl

theorem iteration_connectlist_length (listener : FD) (env : Env) (st : MuxState) :
    (iteration listener env st).state.connectlist.length = st.connectlist.length := by
  by_cases h : env.selectFails = true
  · rw [iteration_selectFail listener env st h]
  · have h2 : env.selectFails = false := by simpa using h
    by_cases hemp : readySet listener env st.connectlist = []
    · rw [iteration_timeout listener env st h2 hemp]
    · have hne : (readySet listener env st.connectlist).isEmpty = false :=
        isEmpty_false_of_ne_nil hemp
      by_cases hl : (readySet listener env st.connectlist).contains listener = true
      · cases ha : env.acceptResult with
        | fail e => rw [iteration_acceptFail listener env st e h2 hl ha]
        | conn f =>
          cases hs : storeFirst st.connectlist f with
          | none => rw [iteration_busy listener env st f h2 hl ha hs]
          | some p =>
            cases p with
            | mk k cl2 =>
              rw [iteration_store listener env st f k cl2 h2 hl ha hs]
              show (serviceLoop _ _ 0 cl2 st.reply).1.length = _
              rw [serviceLoop_fst_length]
              exact storeFirst_length hs
      · have hl2 : (readySet listener env st.connectlist).contains listener = false := by
          simpa using hl
        rw [iteration_noListener listener env st h2 hne hl2]
        exact serviceLoop_fst_length _ _ 0 st.connectlist st.reply

theorem run_connectlist_length (listener : FD) (envs : List Env) (st : MuxState) :
    (run listener envs st).connectlist.length = st.connectlist.length := by
  induction envs generalizing st with
  | nil => rfl
  | cons e rest ih =>
    show (run listener rest (iteration listener e st).state).connectlist.length = _
    rw [ih, iteration_connectlist_length]

/-- C1: the claim says every serviced connection receives exactly the fixed
response with no trailing characters, including connections serviced after
earlier ones in the same run.  Evaluating the embedded loop at a state with
two occupied ready slots shows the second serviced connection is sent two
concatenated copies of the response (the reply StringInfo is initialised
once before the loop and never reset, and send transmits the whole
accumulated buffer), and the buffer keeps growing across services. -/
theorem C1_reply_buffer_accumulates :
    (iteration 3
      { selectFails := false, ready := [4, 5],
        acceptResult := AcceptResult.fail true, recvRes := fun _ => 0 }
      { connectlist := [4, 5, 0, 0, 0], reply := "", highsock := 3 }).events =
      [Event.recvd 0 4 0, Event.sent 0 4 httpReply, Event.closedConn 0 4,
       Event.recvd 1 5 0, Event.sent 1 5 (httpReply ++ httpReply),
       Event.closedConn 1 5] ∧
    (iteration 3
      { selectFails := false, ready := [4, 5],
        acceptResult := AcceptResult.fail true, recvRes := fun _ => 0 }
      { connectlist := [4, 5, 0, 0, 0], reply := "", highsock := 3 }).state.reply =
      httpReply ++ httpReply ∧
    httpReply ++ httpReply ≠ httpReply :=
  ⟨rfl, rfl, by decide⟩

/-- C2: for every capacity N ≥ 1 and every sequence of iterations from the
start state, the connection table keeps its fixed length N and at most N
slots are non-empty, so never more than N connection handles are held at
once.  (The immediate close of an accept that cannot be stored is proved
separately for the busy branch.) -/
theorem C2_capacity_invariant (maxSockets : Nat) (listener : FD) (envs : List Env)
    (_hN : 1 ≤ maxSockets) :
    (run listener envs (initialState maxSockets listener)).connectlist.length =
      maxSockets ∧
    occupiedCount
      (run listener envs (initialState maxSockets listener)).connectlist ≤
      maxSockets := by
  have hlen := run_connectlist_length listener envs (initialState maxSockets listener)
  simp only [initialState, List.length_replicate] at hlen
  exact ⟨hlen, le_trans (occupiedCount_le _) (le_of_eq hlen)⟩

theorem C2_capacity_invariant_witness :
    1 ≤ 1 ∧
    ((run 3 [Env.mk false [3] (AcceptResult.conn 5) (fun _ => 0)]
        (initialState 1 3)).connectlist.length = 1 ∧
      occupiedCount
        (run 3 [Env.mk false [3] (AcceptResult.conn 5) (fun _ => 0)]
          (initialState 1 3)).connectlist ≤ 1) :=
  ⟨by decide,
    C2_capacity_invariant 1 3
      [Env.mk false [3] (AcceptResult.conn 5) (fun _ => 0)] (by decide)⟩

/-- C3: evaluation of the select-failure branch.  In the embedding, taken
literally from the written control flow of the source, a select failure
produces exactly one log event and the loop proceeds; the log level is
ERROR (line 205), unlike every other operational log in the loop, which is
WARNING.  Under PostgreSQL semantics elog at ERROR level raises and does
not return, so the continue after it is dead code and the worker is
terminated: the code contradicts the stated log-and-proceed behaviour. -/
theorem C3_select_failure_logs_error_level (listener : FD) (env : Env)
    (st : MuxState) (h : env.selectFails = true) :
    (iteration listener env st).events = [Event.logged Level.error "select"] ∧
    (iteration listener env st).state.connectlist = st.connectlist ∧
    (iteration listener env st).state.reply = st.reply := by
  rw [iteration_selectFail listener env st h]
  exact ⟨rfl, rfl, rfl⟩

theorem C3_select_failure_logs_error_level_witness :
    (Env.mk true [] (AcceptResult.fail true) (fun _ => 0)).selectFails = true ∧
    ((iteration 3 (Env.mk true [] (AcceptResult.fail true) (fun _ => 0))
        (MuxState.mk [4, 0] "" 3)).events = [Event.logged Level.error "select"] ∧
      (iteration 3 (Env.mk true [] (AcceptResult.fail true) (fun _ => 0))
        (MuxState.mk [4, 0] "" 3)).state.connectlist = [4, 0] ∧
      (iteration 3 (Env.mk true [] (AcceptResult.fail true) (fun _ => 0))
        (MuxState.mk [4, 0] "" 3)).state.reply = "") :=
  ⟨rfl,
    C3_select_failure_logs_error_level 3
      (Env.mk true [] (AcceptResult.fail true) (fun _ => 0))
      (MuxState.mk [4, 0] "" 3) rfl⟩

/-- C4: when the listener is ready, accept succeeds and every slot is
occupied, the iteration accepts the descriptor, logs the busy warning (not
fatal), closes the new descriptor with no send to it, and leaves every
existing slot and the reply buffer unchanged. -/
theorem C4_busy_rejection (listener : FD) (env : Env) (st : MuxState) (f : FD)
    (h : env.selectFails = false)
    (hl : (readySet listener env st.connectlist).contains listener = true)
    (ha : env.acceptResult = AcceptResult.conn f)
    (hfull : ∀ c ∈ st.connectlist, c ≠ 0) :
    (iteration listener env st).events =
      [Event.accepted f, Event.logged Level.warning "server too busy",
       Event.busyClosed f] ∧
    (iteration listener env st).state.connectlist = st.connectlist ∧
    (iteration listener env st).state.reply = st.reply := by
  rw [iteration_busy listener env st f h hl ha (storeFirst_none_of_full hfull)]
  exact ⟨rfl, rfl, rfl⟩

theorem C4_busy_rejection_witness :
    (Env.mk false [3] (AcceptResult.conn 7) (fun _ => 0)).selectFails = false ∧
    (readySet 3 (Env.mk false [3] (AcceptResult.conn 7) (fun _ => 0))
      (MuxState.mk [4] "" 3).connectlist).contains 3 = true ∧
    (Env.mk false [3] (AcceptResult.conn 7) (fun _ => 0)).acceptResult =
      AcceptResult.conn 7 ∧
    (∀ c ∈ (MuxState.mk [4] "" 3).connectlist, c ≠ 0) ∧
    ((iteration 3 (Env.mk false [3] (AcceptResult.conn 7) (fun _ => 0))
        (MuxState.mk [4] "" 3)).events =
      [Event.accepted 7, Event.logged Level.warning "server too busy",
       Event.busyClosed 7] ∧
      (iteration 3 (Env.mk false [3] (AcceptResult.conn 7) (fun _ => 0))
        (MuxState.mk [4] "" 3)).state.connectlist = [4] ∧
      (iteration 3 (Env.mk false [3] (AcceptResult.conn 7) (fun _ => 0))
        (MuxState.mk [4] "" 3)).state.reply = "") :=
  ⟨rfl, by decide, rfl, by decide,
    C4_busy_rejection 3 (Env.mk false [3] (AcceptResult.conn 7) (fun _ => 0))
      (MuxState.mk [4] "" 3) 7 rfl (by decide) rfl (by decide)⟩

/-- C5 counterexample: the claim says that after an accept failure the
occupied slots whose descriptors are ready in the same iteration are still
serviced.  At this concrete input the listener and the occupied slot
descriptor 4 are both in the post-select ready set and accept fails with
EAGAIN, yet the iteration produces no events at all (in particular nothing
is sent on descriptor 4) and the slot is not cleared: the continue after
the failed accept skips the service loop. -/
theorem C5_counterexample :
    (readySet 3 (Env.mk false [3, 4] (AcceptResult.fail true) (fun _ => 0))
      [4, 0]).contains 4 = true ∧
    (iteration 3 (Env.mk false [3, 4] (AcceptResult.fail true) (fun _ => 0))
      (MuxState.mk [4, 0] "" 3)).events = [] ∧
    (iteration 3 (Env.mk false [3, 4] (AcceptResult.fail true) (fun _ => 0))
      (MuxState.mk [4, 0] "" 3)).state.connectlist = [4, 0] :=
  ⟨rfl, rfl, rfl⟩

/-- C5 amended: when the listener is ready and accept fails, an EAGAIN
failure is swallowed with no log output and any other failure logs a
warning; in both cases the rest of the iteration is skipped, so the slot
table and the reply buffer are untouched and ready occupied slots are
serviced only in a later iteration. -/
theorem C5_accept_failure_skips_rest (listener : FD) (env : Env) (st : MuxState)
    (e : Bool) (h : env.selectFails = false)
    (hl : (readySet listener env st.connectlist).contains listener = true)
    (ha : env.acceptResult = AcceptResult.fail e) :
    (iteration listener env st).events =
      (if e then [] else [Event.logged Level.warning "accept() error"]) ∧
    (iteration listener env st).state.connectlist = st.connectlist ∧
    (iteration listener env st).state.reply = st.reply := by
  rw [iteration_acceptFail listener env st e h hl ha]
  exact ⟨rfl, rfl, rfl⟩

theorem C5_accept_failure_skips_rest_witness :
    (Env.mk false [3, 4] (AcceptResult.fail false) (fun _ => 0)).selectFails = false ∧
    (readySet 3 (Env.mk false [3, 4] (AcceptResult.fail false) (fun _ => 0))
      (MuxState.mk [4, 0] "" 3).connectlist).contains 3 = true ∧
    (Env.mk false [3, 4] (AcceptResult.fail false) (fun _ => 0)).acceptResult =
      AcceptResult.fail false ∧
    ((iteration 3 (Env.mk false [3, 4] (AcceptResult.fail false) (fun _ => 0))
        (MuxState.mk [4, 0] "" 3)).events =
      (if false then [] else [Event.logged Level.warning "accept() error"]) ∧
      (iteration 3 (Env.mk false [3, 4] (AcceptResult.fail false) (fun _ => 0))
        (MuxState.mk [4, 0] "" 3)).state.connectlist = [4, 0] ∧
      (iteration 3 (Env.mk false [3, 4] (AcceptResult.fail false) (fun _ => 0))
        (MuxState.mk [4, 0] "" 3)).state.reply = "") :=
  ⟨rfl, by decide, rfl,
    C5_accept_failure_skips_rest 3
      (Env.mk false [3, 4] (AcceptResult.fail false) (fun _ => 0))
      (MuxState.mk [4, 0] "" 3) false rfl (by decide) rfl⟩

/-- C9: when select returns with nothing ready, the iteration is a no-op on
the sockets: the slot table and the reply buffer are unchanged and no
event (no accept, no recv, no send, no close, no log) is produced. -/
theorem C9_timeout_noop (listener : FD) (env : Env) (st : MuxState)
    (h : env.selectFails = false)
    (hempty : readySet listener env st.connectlist = []) :
    (iteration listener env st).state.connectlist = st.connectlist ∧
    (iteration listener env st).state.reply = st.reply ∧
    (iteration listener env st).events = [] := by
  rw [iteration_timeout listener env st h hempty]
  exact ⟨rfl, rfl, rfl⟩

theorem C9_timeout_noop_witness :
    (Env.mk false [] (AcceptResult.fail true) (fun _ => 0)).selectFails = false ∧
    readySet 3 (Env.mk false [] (AcceptResult.fail true) (fun _ => 0))
      (MuxState.mk [4, 0] "" 3).connectlist = [] ∧
    ((iteration 3 (Env.mk false [] (AcceptResult.fail true) (fun _ => 0))
        (MuxState.mk [4, 0] "" 3)).state.connectlist = [4, 0] ∧
      (iteration 3 (Env.mk false [] (AcceptResult.fail true) (fun _ => 0))
        (MuxState.mk [4, 0] "" 3)).state.reply = "" ∧
      (iteration 3 (Env.mk false [] (AcceptResult.fail true) (fun _ => 0))
        (MuxState.mk [4, 0] "" 3)).events = []) :=
  ⟨rfl, by decide,
    C9_timeout_noop 3 (Env.mk false [] (AcceptResult.fail true) (fun _ => 0))
      (MuxState.mk [4, 0] "" 3) rfl (by decide)⟩

/-- C10: when the listener is ready but the accept path stores no new
handle (accept failed, or the table was full and the connection was
busy-rejected), the rest of the iteration is skipped: the slot table and
reply buffer are unchanged and no service event (recv, send or
service-path close) occurs, even for occupied slots that are ready. -/
theorem C10_no_store_skips_service (listener : FD) (env : Env) (st : MuxState)
    (h : env.selectFails = false)
    (hl : (readySet listener env st.connectlist).contains listener = true)
    (hns : acceptStores env.acceptResult st.connectlist = false) :
    (iteration listener env st).state.connectlist = st.connectlist ∧
    (iteration listener env st).state.reply = st.reply ∧
    ∀ e ∈ (iteration listener env st).events, isServiceEvent e = false := by
  cases ha : env.acceptResult with
  | fail eag =>
    rw [iteration_acceptFail listener env st eag h hl ha]
    refine ⟨rfl, rfl, ?_⟩
    intro ev hev
    cases eag with
    | false =>
      simp at hev
      subst hev
      rfl
    | true => simp at hev
  | conn f =>
    rw [ha] at hns
    simp only [acceptStores] at hns
    cases hs : storeFirst st.connectlist f with
    | some p =>
      rw [hs] at hns
      simp at hns
    | none =>
      rw [iteration_busy listener env st f h hl ha hs]
      refine ⟨rfl, rfl, ?_⟩
      intro ev hev
      simp at hev
      rcases hev with h1 | h1 | h1 <;> subst h1 <;> rfl

theorem C10_no_store_skips_service_witness :
    (Env.mk false [3, 4] (AcceptResult.conn 7) (fun _ => 0)).selectFails = false ∧
    (readySet 3 (Env.mk false [3, 4] (AcceptResult.conn 7) (fun _ => 0))
      (MuxState.mk [4] "" 3).connectlist).contains 3 = true ∧
    acceptStores (Env.mk false [3, 4] (AcceptResult.conn 7) (fun _ => 0)).acceptResult
      (MuxState.mk [4] "" 3).connectlist = false ∧
    ((iteration 3 (Env.mk false [3, 4] (AcceptResult.conn 7) (fun _ => 0))
        (MuxState.mk [4] "" 3)).state.connectlist = [4] ∧
      (iteration 3 (Env.mk false [3, 4] (AcceptResult.conn 7) (fun _ => 0))
        (MuxState.mk [4] "" 3)).state.reply = "" ∧
      ∀ e ∈ (iteration 3 (Env.mk false [3, 4] (AcceptResult.conn 7) (fun _ => 0))
        (MuxState.mk [4] "" 3)).events, isServiceEvent e = false) :=
  ⟨rfl, by decide, by decide,
    C10_no_store_skips_service 3
      (Env.mk false [3, 4] (AcceptResult.conn 7) (fun _ => 0))
      (MuxState.mk [4] "" 3) rfl (by decide) (by decide)⟩

theorem sentEvents_accept_front (f : FD) (k : Nat) (evs : List Event) :
    sentEvents (Event.accepted f :: Event.stored k f :: evs) = sentEvents evs := by
  simp [sentEvents, List.filterMap_cons]

theorem closedEvents_accept_front (f : FD) (k : Nat) (evs : List Event) :
    closedEvents (Event.accepted f :: Event.stored k f :: evs) = closedEvents evs := by
  simp [closedEvents, List.filterMap_cons]

/-- C6: the recv outcome is never inspected: two iterations whose
environments agree on everything except the recv results produce the same
final state (same slot table, same reply buffer), the same send events
(same bytes to the same descriptors) and the same service-path close
events.  A failed or zero-byte read therefore leads to exactly the send,
close and slot-clearing of a successful read. -/
theorem C6_recv_outcome_irrelevant (listener : FD) (sf : Bool) (rdy : List FD)
    (ar : AcceptResult) (r1 r2 : FD → Int) (st : MuxState) :
    (iteration listener (Env.mk sf rdy ar r1) st).state =
      (iteration listener (Env.mk sf rdy ar r2) st).state ∧
    sentEvents (iteration listener (Env.mk sf rdy ar r1) st).events =
      sentEvents (iteration listener (Env.mk sf rdy ar r2) st).events ∧
    closedEvents (iteration listener (Env.mk sf rdy ar r1) st).events =
      closedEvents (iteration listener (Env.mk sf rdy ar r2) st).events := by
  cases sf with
  | true =>
    rw [iteration_selectFail listener (Env.mk true rdy ar r1) st rfl,
      iteration_selectFail listener (Env.mk true rdy ar r2) st rfl]
    exact ⟨rfl, rfl, rfl⟩
  | false =>
    by_cases hemp : readySet listener (Env.mk false rdy ar r1) st.connectlist = []
    · rw [iteration_timeout listener (Env.mk false rdy ar r1) st rfl hemp,
        iteration_timeout listener (Env.mk false rdy ar r2) st rfl hemp]
      exact ⟨rfl, rfl, rfl⟩
    · have hne := isEmpty_false_of_ne_nil hemp
      by_cases hl : (readySet listener (Env.mk false rdy ar r1)
          st.connectlist).contains listener = true
      · cases ar with
        | fail e =>
          rw [iteration_acceptFail listener
              (Env.mk false rdy (AcceptResult.fail e) r1) st e rfl hl rfl,
            iteration_acceptFail listener
              (Env.mk false rdy (AcceptResult.fail e) r2) st e rfl hl rfl]
          exact ⟨rfl, rfl, rfl⟩
        | conn f =>
          cases hs : storeFirst st.connectlist f with
          | none =>
            rw [iteration_busy listener
                (Env.mk false rdy (AcceptResult.conn f) r1) st f rfl hl rfl hs,
              iteration_busy listener
                (Env.mk false rdy (AcceptResult.conn f) r2) st f rfl hl rfl hs]
            exact ⟨rfl, rfl, rfl⟩
          | some p =>
            obtain ⟨k, cl2⟩ := p
            rw [iteration_store listener
                (Env.mk false rdy (AcceptResult.conn f) r1) st f k cl2 rfl hl rfl hs,
              iteration_store listener
                (Env.mk false rdy (AcceptResult.conn f) r2) st f k cl2 rfl hl rfl hs]
            obtain ⟨h1, h2, h3, h4⟩ :=
              serviceLoop_recvRes_irrel
                (readySet listener (Env.mk false rdy (AcceptResult.conn f) r1)
                  st.connectlist) r1 r2 0 cl2 st.reply
            refine ⟨?_, ?_, ?_⟩
            · simp only [MuxState.mk.injEq]
              exact ⟨h1, h2, trivial⟩
            · rw [sentEvents_accept_front, sentEvents_accept_front]
              exact h3
            · rw [closedEvents_accept_front, closedEvents_accept_front]
              exact h4
      · have hl2 : (readySet listener (Env.mk false rdy ar r1)
            st.connectlist).contains listener = false := by simpa using hl
        rw [iteration_noListener listener (Env.mk false rdy ar r1) st rfl hne hl2,
          iteration_noListener listener (Env.mk false rdy ar r2) st rfl hne hl2]
        obtain ⟨h1, h2, h3, h4⟩ :=
          serviceLoop_recvRes_irrel
            (readySet listener (Env.mk false rdy ar r1) st.connectlist)
            r1 r2 0 st.connectlist st.reply
        refine ⟨?_, ?_, ?_⟩
        · simp only [MuxState.mk.injEq]
          exact ⟨h1, h2, trivial⟩
        · exact h3
        · exact h4

/-- C7: a ready occupied slot that is serviced in an iteration is
unconditionally returned to the empty state (value 0) within that same
iteration, and its connection is closed, with no retry or continuation
state; hence no serviced slot stays occupied into later iterations, for
any number of sequential connections.  The hypothesis on the listener
branch states that the accept path stores its descriptor, i.e. the
iteration reaches the service loop. -/
theorem C7_serviced_slot_cleared (listener : FD) (env : Env) (st : MuxState)
    (j : Nat) (c : FD)
    (h : env.selectFails = false)
    (hj : st.connectlist[j]? = some c)
    (hc0 : c ≠ 0)
    (hc : (readySet listener env st.connectlist).contains c = true)
    (hacc : (readySet listener env st.connectlist).contains listener = true →
      acceptStores env.acceptResult st.connectlist = true) :
    (iteration listener env st).state.connectlist[j]? = some 0 ∧
    Event.closedConn j c ∈ (iteration listener env st).events := by
  have hne := contains_isEmpty_false hc
  by_cases hl : (readySet listener env st.connectlist).contains listener = true
  · have hstores := hacc hl
    cases ha : env.acceptResult with
    | fail e =>
      rw [ha] at hstores
      simp [acceptStores] at hstores
    | conn f =>
      rw [ha] at hstores
      simp only [acceptStores] at hstores
      cases hs : storeFirst st.connectlist f with
      | none =>
        rw [hs] at hstores
        simp at hstores
      | some p =>
        obtain ⟨k, cl2⟩ := p
        rw [iteration_store listener env st f k cl2 h hl ha hs]
        have hj2 : cl2[j]? = some c := storeFirst_preserves hs hj hc0
        constructor
        · show (serviceLoop (readySet listener env st.connectlist)
            env.recvRes 0 cl2 st.reply).1[j]? = some 0
          rw [serviceLoop_getElem, hj2]
          show some (if (readySet listener env st.connectlist).contains c = true
            then 0 else c) = some 0
          rw [if_pos hc]
        · have hm := serviceLoop_closed_mem (readySet listener env st.connectlist)
            env.recvRes 0 cl2 st.reply j c hj2 hc
          rw [Nat.zero_add] at hm
          exact List.mem_cons_of_mem _ (List.mem_cons_of_mem _ hm)
  · have hl2 : (readySet listener env st.connectlist).contains listener = false := by
      simpa using hl
    rw [iteration_noListener listener env st h hne hl2]
    constructor
    · show (serviceLoop (readySet listener env st.connectlist)
        env.recvRes 0 st.connectlist st.reply).1[j]? = some 0
      rw [serviceLoop_getElem, hj]
      show some (if (readySet listener env st.connectlist).contains c = true
        then 0 else c) = some 0
      rw [if_pos hc]
    · have hm := serviceLoop_closed_mem (readySet listener env st.connectlist)
        env.recvRes 0 st.connectlist st.reply j c hj hc
      rw [Nat.zero_add] at hm
      exact hm

theorem C7_serviced_slot_cleared_witness :
    (Env.mk false [4] (AcceptResult.fail true) (fun _ => 0)).selectFails = false ∧
    (MuxState.mk [4, 0] "" 3).connectlist[0]? = some 4 ∧
    (4 : FD) ≠ 0 ∧
    (readySet 3 (Env.mk false [4] (AcceptResult.fail true) (fun _ => 0))
      (MuxState.mk [4, 0] "" 3).connectlist).contains 4 = true ∧
    ((readySet 3 (Env.mk false [4] (AcceptResult.fail true) (fun _ => 0))
        (MuxState.mk [4, 0] "" 3).connectlist).contains 3 = true →
      acceptStores (Env.mk false [4] (AcceptResult.fail true)
        (fun _ => 0)).acceptResult (MuxState.mk [4, 0] "" 3).connectlist = true) ∧
    ((iteration 3 (Env.mk false [4] (AcceptResult.fail true) (fun _ => 0))
        (MuxState.mk [4, 0] "" 3)).state.connectlist[0]? = some 0 ∧
      Event.closedConn 0 4 ∈ (iteration 3
        (Env.mk false [4] (AcceptResult.fail true) (fun _ => 0))
        (MuxState.mk [4, 0] "" 3)).events) :=
  ⟨rfl, by decide, by decide, by decide, by decide,
    C7_serviced_slot_cleared 3
      (Env.mk false [4] (AcceptResult.fail true) (fun _ => 0))
      (MuxState.mk [4, 0] "" 3) 0 4 rfl (by decide) (by decide) (by decide)
      (by decide)⟩

/-- C8: ordering within one iteration: the event trace splits into a
listener phase followed by a service phase; every accept-side event
(accept, store, busy close, log) precedes every service event (recv, send,
service close), and the slots sent to are in strictly ascending slot-index
order. -/
theorem C8_listener_before_slots_ascending (listener : FD) (env : Env)
    (st : MuxState) :
    ∃ A S, (iteration listener env st).events = A ++ S ∧
      (∀ e ∈ A, isServiceEvent e = false) ∧
      (∀ e ∈ S, isServiceEvent e = true) ∧
      List.Pairwise (fun a b => a < b) (S.filterMap sentSlot) := by
  by_cases h : env.selectFails = true
  · refine ⟨[Event.logged Level.error "select"], [], ?_, ?_, ?_, ?_⟩
    · rw [iteration_selectFail listener env st h]
      simp
    · intro e he
      simp at he
      subst he
      rfl
    · intro e he
      simp at he
    · simp
  · have h2 : env.selectFails = false := by simpa using h
    by_cases hemp : readySet listener env st.connectlist = []
    · refine ⟨[], [], ?_, ?_, ?_, ?_⟩
      · rw [iteration_timeout listener env st h2 hemp]
        simp
      · intro e he
        simp at he
      · intro e he
        simp at he
      · simp
    · have hne := isEmpty_false_of_ne_nil hemp
      by_cases hl : (readySet listener env st.connectlist).contains listener = true
      · cases ha : env.acceptResult with
        | fail e =>
          refine ⟨if e then []
            else [Event.logged Level.warning "accept() error"], [], ?_, ?_, ?_, ?_⟩
          · rw [iteration_acceptFail listener env st e h2 hl ha]
            simp
          · intro ev hev
            cases e with
            | false =>
              simp at hev
              subst hev
              rfl
            | true => simp at hev
          · intro ev hev
            simp at hev
          · simp
        | conn f =>
          cases hs : storeFirst st.connectlist f with
          | none =>
            refine ⟨[Event.accepted f,
              Event.logged Level.warning "server too busy",
              Event.busyClosed f], [], ?_, ?_, ?_, ?_⟩
            · rw [iteration_busy listener env st f h2 hl ha hs]
              simp
            · intro ev hev
              simp at hev
              rcases hev with h1 | h1 | h1 <;> subst h1 <;> rfl
            · intro ev hev
              simp at hev
            · simp
          | some p =>
            obtain ⟨k, cl2⟩ := p
            refine ⟨[Event.accepted f, Event.stored k f],
              (serviceLoop (readySet listener env st.connectlist)
                env.recvRes 0 cl2 st.reply).2.2, ?_, ?_, ?_, ?_⟩
            · rw [iteration_store listener env st f k cl2 h2 hl ha hs]
              simp
            · intro ev hev
              simp at hev
              rcases hev with h1 | h1 <;> subst h1 <;> rfl
            · intro ev hev
              exact serviceLoop_service_events _ _ 0 cl2 st.reply ev hev
            · exact serviceLoop_sent_sorted _ _ 0 cl2 st.reply
      · have hl2 : (readySet listener env st.connectlist).contains listener = false := by
          simpa using hl
        refine ⟨[], (serviceLoop (readySet listener env st.connectlist)
          env.recvRes 0 st.connectlist st.reply).2.2, ?_, ?_, ?_, ?_⟩
        · rw [iteration_noListener listener env st h2 hne hl2]
          simp
        · intro ev hev
          simp at hev
        · intro ev hev
          exact serviceLoop_service_events _ _ 0 st.connectlist st.reply ev hev
        · exact serviceLoop_sent_sorted _ _ 0 st.connectlist st.reply

end PgHttpd
